import Mathlib

/-!
Shallow embedding of `src/library/src/android.rs` (shorebird_updater).

The Rust module locates a native library (`libapp.so`) inside a directory of
split APK archives.  We model:

* Rust `&str` as `String`;
* a zip archive by its list of entries (name plus byte contents), since the
  archive-reader collaborator is assumed correct and is queried only through
  `file_names()` / `by_name()` / `read_to_end()`;
* the filesystem directory as the listing that `fs::read_dir` yields: a list
  of per-entry results (Rust `io::Result<DirEntry>`), where each successful
  entry carries an `OsStr` name (which may fail to decode to text) and is
  either a subdirectory or a file with some contents;
* file contents as either an invalid archive (anything `zip::ZipArchive::new`
  rejects, e.g. a zero-byte file) or a valid archive;
* `anyhow::Error` by a small error datatype covering exactly the error
  sources reachable in this module.

All definitions are computable and all types have decidable equality, so
concrete runs can be settled by `decide`.
-/

deriving instance DecidableEq for Except

namespace Shorebird

/-- One entry of a zip archive: its internal name and its byte contents. -/
structure ZipEntry where
  name : String
  data : List Nat
deriving DecidableEq

/-- Contents of a file on disk, as seen through `zip::ZipArchive::new`:
either not a parseable zip archive, or an archive with a list of entries. -/
inductive FileData where
  | invalidZip : FileData
  | zipFile (entries : List ZipEntry) : FileData
deriving DecidableEq

/-- The entry list of a file's contents (empty for an invalid archive). -/
def FileData.entryList : FileData → List ZipEntry
  | .invalidZip => []
  | .zipFile es => es

/-- An `OsStr` file name: `to_str` either decodes it to text or fails. -/
inductive OsName where
  | valid (s : String) : OsName
  | invalid : OsName
deriving DecidableEq

/-- What a directory entry points at: a subdirectory or a file. -/
inductive FsNode where
  | dir : FsNode
  | file (data : FileData) : FsNode
deriving DecidableEq

/-- A successfully read directory entry (`fs::DirEntry`). -/
structure DirEntry where
  name : OsName
  node : FsNode
deriving DecidableEq

/-- One item yielded by `fs::read_dir`: `io::Result<DirEntry>`, an I/O error
message or an entry. -/
abbrev DirItem := Except String DirEntry

/-- A directory to scan: the result of `fs::read_dir` itself (`Err` when the
directory cannot be read at all) and, on success, the items it yields in
enumeration order. -/
abbrev ApksDir := Except String (List DirItem)

/-- Errors reachable from this module, abstracting `anyhow::Error`:
`ioError` for filesystem failures (with the OS message), `zipError` for
`zip::ZipArchive::new` failures ("invalid Zip archive"), `libNotFound` for
the module's own "Library not found in APK", and `entryNotFound` for the
"Failed to find libapp.so in APK" context in `open_base_lib`. -/
inductive FindError where
  | ioError (msg : String) : FindError
  | zipError : FindError
  | libNotFound : FindError
  | entryNotFound : FindError
deriving DecidableEq

/-- Rust `InitError` (declared in the crate root) as used here: only the
`InvalidArgument(field, detail)` variant is reachable from this module. -/
inductive InitError where
  | invalidArgument (field : String) (detail : String) : InitError
deriving DecidableEq

/-- Rust `ZipLocation`: the opened archive (modelled by its entry list) together
with the internal path that was matched. -/
structure ZipLocation where
  archive : List ZipEntry
  internal_path : String
deriving DecidableEq

/-! ### String helpers mirroring Rust `str::ends_with` / `str::contains` -/

/-- Substring search on character lists: `pat` occurs in the list.  Rust
`str::contains(pat)` is byte-substring search, which for valid UTF-8 agrees
with character-substring search (UTF-8 is self-synchronizing). -/
def hasSubstrAux (pat : List Char) : List Char → Bool
  | [] => pat.isEmpty
  | c :: cs => pat.isPrefixOf (c :: cs) || hasSubstrAux pat cs

/-- Rust `s.contains(pat)`. -/
def strContains (s pat : String) : Bool := hasSubstrAux pat.data s.data

/-- Rust `s.ends_with(pat)`. -/
def strEndsWith (s pat : String) : Bool := pat.data.isSuffixOf s.data

/-- Rust `s.starts_with(pat)` (used for `Path::is_absolute` on Unix). -/
def strStartsWith (s pat : String) : Bool := pat.data.isPrefixOf s.data

/-! ### ArchNames and the architecture table (`android_arch_names`) -/

/-- Rust `ArchNames`: name used in apk split file names vs name used in library
paths inside the archive. -/
structure ArchNames where
  apk_split : String
  lib_dir : String
deriving DecidableEq

/-- Value of `android_arch_names()` under `#[cfg(target_arch = "x86")]`. -/
def archX86 : ArchNames := { apk_split := "x86", lib_dir := "x86" }

/-- Value of `android_arch_names()` under `#[cfg(target_arch = "x86_64")]`. -/
def archX86_64 : ArchNames := { apk_split := "x86_64", lib_dir := "x86_64" }

/-- Value of `android_arch_names()` under `#[cfg(target_arch = "aarch64")]`. -/
def archAarch64 : ArchNames := { apk_split := "arm64_v8a", lib_dir := "arm64-v8a" }

/-- Value of `android_arch_names()` under `#[cfg(target_arch = "arm")]`. -/
def archArm : ArchNames := { apk_split := "armeabi_v7a", lib_dir := "armeabi-v7a" }

/-- The closed set of architecture pairs the source compiles in. -/
def androidArchList : List ArchNames := [archX86, archX86_64, archAarch64, archArm]

/-! ### Path model (Rust `std::path` on Unix) -/

/-- Rust `PathBuf::push` (and hence `Path::join`) on Unix, on the textual
representation: an absolute argument replaces the path; otherwise a `/`
separator is inserted unless the buffer is empty or already ends in `/`. -/
def pathBufPush (base p : String) : String :=
  if strStartsWith p "/" then p
  else if base == "" || strEndsWith base "/" then base ++ p
  else base ++ "/" ++ p

/-- Rust `get_relative_lib_path`:
`PathBuf::from("lib").join(arch.lib_dir).join(lib_name)`, converted to a
string (`to_str` on a Unix path built from `String`s always succeeds, so the
`.context("Invalid lib path")?` in `find_and_open_lib` never fires). -/
def get_relative_lib_path (arch : ArchNames) (lib_name : String) : String :=
  pathBufPush (pathBufPush "lib" arch.lib_dir) lib_name

/-- A Rust `Path`, by its parsed components: whether it `has_root` and its
component list.  Rust's component normalization drops empty components and
`.`, except a leading `CurDir` (a rootless path starting with a lone `.`),
which is kept — and which `Path::parent` strips like any other component;
we represent that leading `CurDir` as a `"."` list head.  `..` components
are not normalized and are kept verbatim, as in Rust. -/
structure RPath where
  absolute : Bool
  components : List String
deriving DecidableEq

/-- Split a character list on `/`, keeping empty pieces (the semantics of
splitting a path string on its separator). -/
def splitOnSlash (cs : List Char) : List (List Char) :=
  match cs with
  | [] => [[]]
  | c :: rest =>
    match splitOnSlash rest with
    | [] => [[]]
    | piece :: pieces =>
      if c = '/' then [] :: piece :: pieces else (c :: piece) :: pieces

/-- Rust `PathBuf::from(s)`, parsed into components.  A rootless path whose
first piece is exactly `.` (i.e. `s` is `.` or starts with `./`) keeps that
leading `CurDir` component; every other `.` piece, and every empty piece, is
normalized away. -/
def parsePath (s : String) : RPath :=
  let pieces := (splitOnSlash s.data).map (fun piece => String.mk piece)
  let absolute := strStartsWith s "/"
  let normal := pieces.filter (fun c => !(c == "") && !(c == "."))
  { absolute := absolute
    components :=
      if !absolute && pieces.head? == some "." then "." :: normal else normal }

/-- Rust `Path::parent`: `None` for the root path and the empty path, otherwise
the path minus its last component. -/
def RPath.parent (p : RPath) : Option RPath :=
  match p.components with
  | [] => none
  | _ => some { absolute := p.absolute, components := p.components.dropLast }

/-- Rust `path.ancestors().nth(n)`: the n-th iterate of `parent` (the `ancestors`
iterator yields the path itself first, then successive parents). -/
def ancestorNth (p : RPath) : Nat → Option RPath
  | 0 => some p
  | n + 1 =>
    match p.parent with
    | none => none
    | some q => ancestorNth q n

/-! ### PathDeriver: `app_data_dir_from_libapp_path`, `libapp_path_from_settings` -/

/-- Rust `app_data_dir_from_libapp_path`: walk three ancestor levels up from the
given path, or fail with `InvalidArgument`. -/
def app_data_dir_from_libapp_path (libapp_path : String) : Except InitError RPath :=
  match ancestorNth (parsePath libapp_path) 3 with
  | none =>
    .error (.invalidArgument "original_libapp_paths" ("Invalid path: " ++ libapp_path))
  | some root => .ok root

/-- Rust `libapp_path_from_settings`: take the last hint path and derive the app
data directory from it; fail with `InvalidArgument(_, "empty")` when the
list is empty. -/
def libapp_path_from_settings (original_libapp_paths : List String) : Except InitError RPath :=
  match original_libapp_paths.getLast? with
  | none => .error (.invalidArgument "original_libapp_paths" "empty")
  | some full_libapp_path => app_data_dir_from_libapp_path full_libapp_path

/-! ### SplitArchiveLocator: `check_for_lib_path`, `find_and_open_lib`, `open_base_lib` -/

/-- Rust `check_for_lib_path`, applied to the result of opening the candidate
file: `File::open` failure propagates (`?`), `ZipArchive::new` failure on a
non-archive propagates (`?`, modelled as `zipError`), then the archive's
`file_names()` are searched for `lib_path`. -/
def check_for_lib_path (opened : Except FindError FileData) (lib_path : String) :
    Except FindError ZipLocation :=
  match opened with
  | .error e => .error e
  | .ok .invalidZip => .error .zipError
  | .ok (.zipFile es) =>
    if es.any (fun e => e.name == lib_path) then
      .ok { archive := es, internal_path := lib_path }
    else
      .error .libNotFound

/-- Rust `fs::File::open(dir.join(name))`, resolved against the directory's
items: the named entry's contents if it is a file, an EISDIR-style I/O error
if it is a subdirectory (reading a directory fd fails), and the ENOENT
message when no entry has that name.  Name lookup is independent of
enumeration order and of failed listing items. -/
def openFileByName (items : List DirItem) (name : String) : Except FindError FileData :=
  match items with
  | [] => .error (.ioError "No such file or directory")
  | .error _ :: rest => openFileByName rest name
  | .ok e :: rest =>
    if e.name == OsName.valid name then
      match e.node with
      | .file data => .ok data
      | .dir => .error (.ioError "Is a directory")
    else
      openFileByName rest name

/-- The `for entry in fs::read_dir(apks_dir)?` loop of `find_and_open_lib`:
a failed listing item propagates (`let entry = entry?;`); subdirectories are
skipped; names that do not decode are skipped; names must end in `.apk` and
contain the architecture's split name; a candidate whose
`check_for_lib_path` succeeds is returned (`.some`), a failing candidate is
skipped; an exhausted loop yields `.none`. -/
def scanEntries (arch : ArchNames) (lib_path : String) :
    List DirItem → Except FindError (Option ZipLocation)
  | [] => .ok none
  | .error msg :: _ => .error (.ioError msg)
  | .ok e :: rest =>
    match e.node with
    | .dir => scanEntries arch lib_path rest
    | .file data =>
      match e.name with
      | .invalid => scanEntries arch lib_path rest
      | .valid filename =>
        if strEndsWith filename ".apk" && strContains filename arch.apk_split then
          match check_for_lib_path (.ok data) lib_path with
          | .ok zl => .ok (some zl)
          | .error _ => scanEntries arch lib_path rest
        else
          scanEntries arch lib_path rest

/-- Rust `find_and_open_lib`: scan the directory for an arch-matching split apk
containing `lib/<lib_dir>/<lib_name>`; if none matches, fall back to
`base.apk` and surface its failure. -/
def find_and_open_lib (arch : ArchNames) (apks_dir : ApksDir) (lib_name : String) :
    Except FindError ZipLocation :=
  let lib_path := get_relative_lib_path arch lib_name
  match apks_dir with
  | .error msg => .error (.ioError msg)
  | .ok items =>
    match scanEntries arch lib_path items with
    | .error e => .error e
    | .ok (some zl) => .ok zl
    | .ok none => check_for_lib_path (openFileByName items "base.apk") lib_path

/-- Rust `ZipArchive::by_name`: look up an entry by its exact name. -/
def byName (es : List ZipEntry) (name : String) : Option ZipEntry :=
  es.find? (fun e => e.name == name)

/-- Rust `open_base_lib`: find the archive, open the matched entry by its
internal path (the `.context("Failed to find libapp.so in APK")?` failure is
`entryNotFound`), and read it fully into a buffer (`Cursor<Vec<u8>>`,
modelled by the byte list). -/
def open_base_lib (arch : ArchNames) (apks_dir : ApksDir) (lib_name : String) :
    Except FindError (List Nat) :=
  match find_and_open_lib arch apks_dir lib_name with
  | .error e => .error e
  | .ok zip_location =>
    match byName zip_location.archive zip_location.internal_path with
    | none => .error .entryNotFound
    | some zip_file => .ok zip_file.data

/-! ### Spec-side helpers used to state the claims -/

/-- A listing item is a successfully read entry. -/
def isOkItem : DirItem → Bool
  | .ok _ => true
  | .error _ => false

/-- Whether a candidate file's contents contain `lib_path` among its entry
names, i.e. whether `check_for_lib_path` would succeed on it. -/
def probeOk (data : FileData) (lib_path : String) : Bool :=
  match data with
  | .invalidZip => false
  | .zipFile es => es.any (fun e => e.name == lib_path)

/-- The phase-one candidate extracted from a listing item, if any: a
successfully read entry that is a file with a text-decodable name ending in
`.apk` and containing the architecture's split name. -/
def archCandidate (arch : ArchNames) (item : DirItem) : Option FileData :=
  match item with
  | .error _ => none
  | .ok e =>
    match e.node with
    | .dir => none
    | .file data =>
      match e.name with
      | .invalid => none
      | .valid filename =>
        if strEndsWith filename ".apk" && strContains filename arch.apk_split then
          some data
        else
          none

/-- The phase-one candidates of a listing, in enumeration order. -/
def candidateList (arch : ArchNames) (items : List DirItem) : List FileData :=
  items.filterMap (archCandidate arch)

/-! ### Helper lemmas -/

/-- A probe that would succeed makes `check_for_lib_path` return the archive
with the requested internal path. -/
lemma check_ok_of_probeOk (data : FileData) (lp : String) (h : probeOk data lp = true) :
    check_for_lib_path (.ok data) lp = .ok ⟨data.entryList, lp⟩ := by
  cases data with
  | invalidZip => simp [probeOk] at h
  | zipFile es =>
    simp only [probeOk] at h
    simp [check_for_lib_path, FileData.entryList, h]

/-- A probe that would fail makes `check_for_lib_path` return some error. -/
lemma check_err_of_probeOk_false (data : FileData) (lp : String)
    (h : probeOk data lp = false) :
    ∃ err, check_for_lib_path (.ok data) lp = .error err := by
  cases data with
  | invalidZip => exact ⟨.zipError, rfl⟩
  | zipFile es =>
    simp only [probeOk] at h
    exact ⟨.libNotFound, by simp [check_for_lib_path, h]⟩

/-- On a listing whose items were all read successfully, the scan loop
returns exactly the first phase-one candidate (in enumeration order) whose
archive contains `lp`, bundled with `lp` as internal path. -/
lemma scanEntries_eq_find (arch : ArchNames) (lp : String) :
    ∀ items : List DirItem, items.all isOkItem = true →
      scanEntries arch lp items =
        .ok (((candidateList arch items).find? (fun d => probeOk d lp)).map
          (fun d => ⟨d.entryList, lp⟩)) := by
  intro items
  induction items with
  | nil => intro _; rfl
  | cons item rest ih =>
    intro hall
    rw [List.all_cons, Bool.and_eq_true] at hall
    have hrest := ih hall.2
    match item with
    | .error msg => simp [isOkItem] at hall
    | .ok e =>
      obtain ⟨nm, nd⟩ := e
      cases nd with
      | dir => simpa [scanEntries, candidateList, List.filterMap_cons, archCandidate] using hrest
      | file data =>
        cases nm with
        | invalid =>
          simpa [scanEntries, candidateList, List.filterMap_cons, archCandidate] using hrest
        | valid fn =>
          cases hf : (strEndsWith fn ".apk" && strContains fn arch.apk_split) with
          | false =>
            simpa [scanEntries, candidateList, List.filterMap_cons, archCandidate, hf]
              using hrest
          | true =>
            cases hp : probeOk data lp with
            | true =>
              have hc := check_ok_of_probeOk data lp hp
              simp [scanEntries, hf, hc, candidateList, List.filterMap_cons, archCandidate,
                List.find?, hp]
            | false =>
              obtain ⟨err, herr⟩ := check_err_of_probeOk_false data lp hp
              simp [scanEntries, hf, herr, candidateList, List.filterMap_cons, archCandidate,
                List.find?, hp, hrest]

/-- Full characterization of `find_and_open_lib` on an error-free listing:
the first successful phase-one candidate wins, otherwise the result is the
(surfaced) outcome of the `base.apk` attempt. -/
lemma find_and_open_lib_eq (arch : ArchNames) (items : List DirItem) (lib_name : String)
    (hall : items.all isOkItem = true) :
    find_and_open_lib arch (.ok items) lib_name =
      match (candidateList arch items).find?
          (fun d => probeOk d (get_relative_lib_path arch lib_name)) with
      | some d => .ok ⟨d.entryList, get_relative_lib_path arch lib_name⟩
      | none =>
        check_for_lib_path (openFileByName items "base.apk")
          (get_relative_lib_path arch lib_name) := by
  simp only [find_and_open_lib]
  rw [scanEntries_eq_find arch _ items hall]
  cases (candidateList arch items).find?
      (fun d => probeOk d (get_relative_lib_path arch lib_name)) with
  | some d => rfl
  | none => rfl

/-- Any `ZipLocation` that `check_for_lib_path` returns has its internal
path among the entry names of its archive. -/
lemma check_invariant (opened : Except FindError FileData) (lp : String) (zl : ZipLocation)
    (h : check_for_lib_path opened lp = .ok zl) :
    zl.archive.any (fun e => e.name == zl.internal_path) = true := by
  match opened with
  | .error e => simp [check_for_lib_path] at h
  | .ok .invalidZip => simp [check_for_lib_path] at h
  | .ok (.zipFile es) =>
    simp only [check_for_lib_path] at h
    split at h
    next hb =>
      cases h
      simpa using hb
    next hb => simp at h

/-- Any `ZipLocation` produced by the scan loop satisfies the internal-path
invariant. -/
lemma scanEntries_some_invariant (arch : ArchNames) (lp : String) :
    ∀ (items : List DirItem) (zl : ZipLocation),
      scanEntries arch lp items = .ok (some zl) →
      zl.archive.any (fun e => e.name == zl.internal_path) = true := by
  intro items
  induction items with
  | nil => intro zl h; simp [scanEntries] at h
  | cons item rest ih =>
    intro zl h
    match item with
    | .error msg => simp [scanEntries] at h
    | .ok e =>
      rcases e with ⟨nm, nd⟩
      cases nd with
      | dir => exact ih zl (by simpa [scanEntries] using h)
      | file data =>
        cases nm with
        | invalid => exact ih zl (by simpa [scanEntries] using h)
        | valid fn =>
          cases hf : (strEndsWith fn ".apk" && strContains fn arch.apk_split) with
          | false => exact ih zl (by simpa [scanEntries, hf] using h)
          | true =>
            cases hc : check_for_lib_path (.ok data) lp with
            | ok zl' =>
              have : zl' = zl := by simpa [scanEntries, hf, hc] using h
              exact this ▸ check_invariant (.ok data) lp zl' hc
            | error err => exact ih zl (by simpa [scanEntries, hf, hc] using h)

/-- A subdirectory entry is skipped by the scan loop. -/
lemma scan_skip_dir (arch : ArchNames) (lp : String) (e : DirEntry) (rest : List DirItem)
    (h : e.node = .dir) :
    scanEntries arch lp (.ok e :: rest) = scanEntries arch lp rest := by
  rcases e with ⟨nm, nd⟩
  cases nd with
  | dir => rfl
  | file data => simp at h

/-- A file entry whose name does not decode to text is skipped. -/
lemma scan_skip_invalid_name (arch : ArchNames) (lp : String) (data : FileData)
    (rest : List DirItem) :
    scanEntries arch lp (.ok ⟨.invalid, .file data⟩ :: rest) = scanEntries arch lp rest := rfl

/-- A file entry whose name fails the `.apk`/arch-substring filter is
skipped. -/
lemma scan_skip_nonmatching (arch : ArchNames) (lp : String) (fn : String) (data : FileData)
    (rest : List DirItem)
    (hf : (strEndsWith fn ".apk" && strContains fn arch.apk_split) = false) :
    scanEntries arch lp (.ok ⟨.valid fn, .file data⟩ :: rest) = scanEntries arch lp rest := by
  simp [scanEntries, hf]

/-- A matching candidate whose probe fails (unopenable archive or missing
entry) is skipped and the scan continues. -/
lemma scan_skip_failed_probe (arch : ArchNames) (lp : String) (fn : String) (data : FileData)
    (rest : List DirItem)
    (hf : (strEndsWith fn ".apk" && strContains fn arch.apk_split) = true)
    (hp : probeOk data lp = false) :
    scanEntries arch lp (.ok ⟨.valid fn, .file data⟩ :: rest) = scanEntries arch lp rest := by
  obtain ⟨err, herr⟩ := check_err_of_probeOk_false data lp hp
  simp [scanEntries, hf, herr]

/-- Scanning past an exhausted prefix continues with the remaining items. -/
lemma scanEntries_append (arch : ArchNames) (lp : String) :
    ∀ pre post : List DirItem, scanEntries arch lp pre = .ok none →
      scanEntries arch lp (pre ++ post) = scanEntries arch lp post := by
  intro pre
  induction pre with
  | nil => intro post _; rfl
  | cons item rest ih =>
    intro post h
    match item with
    | .error msg => simp [scanEntries] at h
    | .ok e =>
      rcases e with ⟨nm, nd⟩
      cases nd with
      | dir =>
        rw [List.cons_append, scan_skip_dir arch lp _ _ rfl]
        exact ih post (by simpa [scanEntries] using h)
      | file data =>
        cases nm with
        | invalid =>
          rw [List.cons_append, scan_skip_invalid_name]
          exact ih post (by simpa [scanEntries] using h)
        | valid fn =>
          cases hf : (strEndsWith fn ".apk" && strContains fn arch.apk_split) with
          | false =>
            rw [List.cons_append, scan_skip_nonmatching arch lp fn data _ hf]
            exact ih post (by simpa [scanEntries, hf] using h)
          | true =>
            cases hc : check_for_lib_path (.ok data) lp with
            | ok zl => simp [scanEntries, hf, hc] at h
            | error err =>
              rw [List.cons_append]
              simp only [scanEntries, hf, hc, if_true]
              exact ih post (by simpa [scanEntries, hf, hc] using h)

/-- An entry whose name differs from the requested one does not affect
opening a file by name. -/
lemma openFileByName_skip (items : List DirItem) (e : DirEntry) (name : String)
    (h : (e.name == OsName.valid name) = false) :
    openFileByName (.ok e :: items) name = openFileByName items name := by
  simp [openFileByName, h]

/-- Rust `ancestors().nth(n)` fails when the path has fewer than `n` components. -/
lemma ancestorNth_eq_none :
    ∀ (n : Nat) (p : RPath), p.components.length < n → ancestorNth p n = none := by
  intro n
  induction n with
  | zero => intro p h; exact absurd h (Nat.not_lt_zero _)
  | succ n ih =>
    intro p h
    rcases hc : p.components with _ | ⟨c, cs⟩
    · simp [ancestorNth, RPath.parent, hc]
    · have hp : p.parent = some ⟨p.absolute, p.components.dropLast⟩ := by
        simp [RPath.parent, hc]
      have hlc : p.components.length = cs.length + 1 := by rw [hc]; rfl
      have hlen : (⟨p.absolute, p.components.dropLast⟩ : RPath).components.length < n := by
        simp only [List.length_dropLast]
        omega
      simp [ancestorNth, hp, ih _ hlen]

/-- Rust `ancestors().nth(n)` succeeds when the path has at least `n` components,
and returns the path with its last `n` components discarded. -/
lemma ancestorNth_eq_some :
    ∀ (n : Nat) (p : RPath), n ≤ p.components.length →
      ∃ dir tail, ancestorNth p n = some dir ∧ dir.absolute = p.absolute ∧
        tail.length = n ∧ p.components = dir.components ++ tail := by
  intro n
  induction n with
  | zero => intro p _; exact ⟨p, [], rfl, rfl, rfl, by simp⟩
  | succ n ih =>
    intro p h
    have hne : p.components ≠ [] := by
      intro hc
      rw [hc] at h
      simp at h
    have hp : p.parent = some ⟨p.absolute, p.components.dropLast⟩ := by
      rcases hc : p.components with _ | ⟨c, cs⟩
      · exact absurd hc hne
      · simp [RPath.parent, hc]
    have hlen : n ≤ (⟨p.absolute, p.components.dropLast⟩ : RPath).components.length := by
      simp only [List.length_dropLast]
      omega
    obtain ⟨dir, tail, h1, h2, h3, h4⟩ := ih ⟨p.absolute, p.components.dropLast⟩ hlen
    refine ⟨dir, tail ++ [p.components.getLast hne], ?_, h2, by simp [h3], ?_⟩
    · simp [ancestorNth, hp, h1]
    · conv_lhs => rw [← List.dropLast_append_getLast hne]
      simp only at h4
      rw [h4, List.append_assoc]

/-- An element returned by `find?` satisfies the predicate. -/
lemma find?_sat {α : Type} (p : α → Bool) :
    ∀ (l : List α) (a : α), l.find? p = some a → p a = true := by
  intro l
  induction l with
  | nil => intro a h; simp at h
  | cons x xs ih =>
    intro a h
    cases hx : p x with
    | true =>
      simp only [List.find?, hx] at h
      cases h
      exact hx
    | false =>
      simp only [List.find?, hx] at h
      exact ih a h

/-- If filtering a list yields exactly one element, `find?` returns it (in
any enumeration order satisfying that hypothesis). -/
lemma find?_of_filter_eq_singleton {α : Type} (p : α → Bool) :
    ∀ (l : List α) (a : α), l.filter p = [a] → l.find? p = some a := by
  intro l
  induction l with
  | nil => intro a h; simp at h
  | cons x xs ih =>
    intro a h
    cases hx : p x with
    | true =>
      rw [List.filter_cons, if_pos hx] at h
      rw [List.cons.injEq] at h
      obtain ⟨rfl, -⟩ := h
      simp [List.find?, hx]
    | false =>
      rw [List.filter_cons, if_neg (by simp [hx])] at h
      simp only [List.find?, hx]
      exact ih a h

/-- Any `ZipLocation` returned by `find_and_open_lib` (through either phase)
satisfies the internal-path invariant. -/
lemma find_and_open_lib_invariant (arch : ArchNames) (apks_dir : ApksDir)
    (lib_name : String) (zl : ZipLocation)
    (h : find_and_open_lib arch apks_dir lib_name = .ok zl) :
    zl.archive.any (fun e => e.name == zl.internal_path) = true := by
  rcases apks_dir with msg | items
  · exact absurd h (by simp [find_and_open_lib])
  · have h' := h
    simp only [find_and_open_lib] at h'
    rcases hs : scanEntries arch (get_relative_lib_path arch lib_name) items with err | o
    · rw [hs] at h'
      exact absurd h' (by simp)
    · rcases o with _ | zl'
      · rw [hs] at h'
        exact check_invariant _ _ _ h'
      · rw [hs] at h'
        simp only [Except.ok.injEq] at h'
        subst h'
        exact scanEntries_some_invariant arch _ items _ hs

/-! ### Claim theorems -/

/-- C1: on an error-free listing, `find_and_open_lib` considers, among
directory entries that are files with text-decodable names, exactly those
ending in `.apk` and containing the architecture's `apk_split` substring
(`candidateList`); it probes them in enumeration order (`find?`) and
returns, at the first candidate whose archive contains the expected
in-archive path, a `ZipLocation` whose internal path equals that expected
path. -/
theorem C1_find_library_first_match (arch : ArchNames) (items : List DirItem)
    (lib_name : String) (hall : items.all isOkItem = true) :
    find_and_open_lib arch (.ok items) lib_name =
      match (candidateList arch items).find?
          (fun d => probeOk d (get_relative_lib_path arch lib_name)) with
      | some d => .ok ⟨d.entryList, get_relative_lib_path arch lib_name⟩
      | none =>
        check_for_lib_path (openFileByName items "base.apk")
          (get_relative_lib_path arch lib_name) :=
  find_and_open_lib_eq arch items lib_name hall

/-- C1 witness: a concrete directory with a failing candidate before the
matching one; the library is found in the second split with the expected
internal path. -/
theorem C1_find_library_first_match_witness :
    ([Except.ok ⟨.valid "aaa-x86_64.apk", .file (.zipFile [])⟩,
      Except.ok ⟨.valid "app-x86_64.apk",
        .file (.zipFile [⟨"lib/x86_64/libapp.so", [3]⟩])⟩] : List DirItem).all isOkItem = true
    ∧ find_and_open_lib archX86_64
        (.ok [Except.ok ⟨.valid "aaa-x86_64.apk", .file (.zipFile [])⟩,
              Except.ok ⟨.valid "app-x86_64.apk",
                .file (.zipFile [⟨"lib/x86_64/libapp.so", [3]⟩])⟩]) "libapp.so"
      = .ok ⟨[⟨"lib/x86_64/libapp.so", [3]⟩], "lib/x86_64/libapp.so"⟩ :=
  ⟨by decide,
   (C1_find_library_first_match archX86_64
      [Except.ok ⟨.valid "aaa-x86_64.apk", .file (.zipFile [])⟩,
       Except.ok ⟨.valid "app-x86_64.apk",
         .file (.zipFile [⟨"lib/x86_64/libapp.so", [3]⟩])⟩] "libapp.so" (by decide)).trans
     (by decide)⟩

/-- C2: probe failures on non-final arch-matching candidates are swallowed
and the scan continues; the terminal base-archive attempt is surfaced: an
invalid base archive yields the archive error, a valid base archive lacking
the entry yields the not-found error, and an absent base archive yields the
I/O does-not-exist error. -/
theorem C2_error_propagation :
    (∀ (arch : ArchNames) (lp fn : String) (data : FileData) (rest : List DirItem),
        (strEndsWith fn ".apk" && strContains fn arch.apk_split) = true →
        probeOk data lp = false →
        scanEntries arch lp (.ok ⟨.valid fn, .file data⟩ :: rest) = scanEntries arch lp rest)
    ∧ (∀ (arch : ArchNames) (lib_name : String),
        find_and_open_lib arch
            (.ok [Except.ok ⟨.valid "base.apk", .file .invalidZip⟩]) lib_name
          = .error .zipError)
    ∧ (∀ (arch : ArchNames) (lib_name : String) (es : List ZipEntry),
        probeOk (.zipFile es) (get_relative_lib_path arch lib_name) = false →
        find_and_open_lib arch
            (.ok [Except.ok ⟨.valid "base.apk", .file (.zipFile es)⟩]) lib_name
          = .error .libNotFound)
    ∧ (∀ (arch : ArchNames) (lib_name : String),
        open_base_lib arch (.ok []) lib_name
          = .error (.ioError "No such file or directory")) := by
  refine ⟨fun arch lp fn data rest hf hp => scan_skip_failed_probe arch lp fn data rest hf hp,
    ?_, ?_, ?_⟩
  · intro arch lib_name
    have hscan : scanEntries arch (get_relative_lib_path arch lib_name)
        [Except.ok ⟨.valid "base.apk", .file .invalidZip⟩] = .ok none := by
      cases hf : (strEndsWith "base.apk" ".apk" && strContains "base.apk" arch.apk_split) with
      | true =>
        rw [scan_skip_failed_probe arch _ _ _ _ hf (by rfl)]
        rfl
      | false =>
        rw [scan_skip_nonmatching arch _ _ _ _ hf]
        rfl
    simp only [find_and_open_lib]
    rw [hscan]
    simp [openFileByName, check_for_lib_path]
  · intro arch lib_name es hp
    have hscan : scanEntries arch (get_relative_lib_path arch lib_name)
        [Except.ok ⟨.valid "base.apk", .file (.zipFile es)⟩] = .ok none := by
      cases hf : (strEndsWith "base.apk" ".apk" && strContains "base.apk" arch.apk_split) with
      | true =>
        rw [scan_skip_failed_probe arch _ _ _ _ hf hp]
        rfl
      | false =>
        rw [scan_skip_nonmatching arch _ _ _ _ hf]
        rfl
    simp only [find_and_open_lib]
    rw [hscan]
    simp only [probeOk] at hp
    simp [openFileByName, check_for_lib_path, hp]
  · intro arch lib_name
    rfl

/-- C2 witness: concrete instances of all four propagation behaviors. -/
theorem C2_error_propagation_witness :
    scanEntries archX86_64 "lib/x86_64/libapp.so"
        [Except.ok ⟨.valid "bad-x86_64.apk", .file .invalidZip⟩]
      = scanEntries archX86_64 "lib/x86_64/libapp.so" []
    ∧ find_and_open_lib archX86
        (.ok [Except.ok ⟨.valid "base.apk", .file .invalidZip⟩]) "libapp.so"
      = .error .zipError
    ∧ find_and_open_lib archX86_64
        (.ok [Except.ok ⟨.valid "base.apk", .file (.zipFile [])⟩]) "libapp.so"
      = .error .libNotFound
    ∧ open_base_lib archArm (.ok []) "libapp.so"
      = .error (.ioError "No such file or directory") :=
  ⟨C2_error_propagation.1 archX86_64 "lib/x86_64/libapp.so" "bad-x86_64.apk" .invalidZip []
     (by decide) (by decide),
   C2_error_propagation.2.1 archX86 "libapp.so",
   C2_error_propagation.2.2.1 archX86_64 "libapp.so" [] (by decide),
   C2_error_propagation.2.2.2 archArm "libapp.so"⟩

/-- C3: `libapp_path_from_settings` fails with `InvalidArgument(_, "empty")`
on an empty list; otherwise it takes the last element and returns it with
its last three path segments discarded, failing with
`InvalidArgument(_, "Invalid path: <value>")` when the path has fewer than
three ancestor levels; the literal hint-path scenario returns exactly the
app data directory. -/
theorem C3_hint_paths :
    (libapp_path_from_settings []
        = .error (.invalidArgument "original_libapp_paths" "empty"))
    ∧ (∀ (paths : List String) (p : String), paths.getLast? = some p →
        3 ≤ (parsePath p).components.length →
        ∃ dir tail, libapp_path_from_settings paths = .ok dir ∧
          dir.absolute = (parsePath p).absolute ∧ tail.length = 3 ∧
          (parsePath p).components = dir.components ++ tail)
    ∧ (∀ (paths : List String) (p : String), paths.getLast? = some p →
        (parsePath p).components.length < 3 →
        libapp_path_from_settings paths =
          .error (.invalidArgument "original_libapp_paths" ("Invalid path: " ++ p)))
    ∧ (libapp_path_from_settings
          ["/data/app/~~X/com.example-Y/lib/x86_64/libapp.so"]
        = .ok (parsePath "/data/app/~~X/com.example-Y")) := by
  refine ⟨rfl, ?_, ?_, by decide⟩
  · intro paths p hl h
    obtain ⟨dir, tail, h1, h2, h3, h4⟩ := ancestorNth_eq_some 3 (parsePath p) h
    exact ⟨dir, tail, by simp [libapp_path_from_settings, hl,
      app_data_dir_from_libapp_path, h1], h2, h3, h4⟩
  · intro paths p hl h
    simp [libapp_path_from_settings, hl, app_data_dir_from_libapp_path,
      ancestorNth_eq_none 3 (parsePath p) h]

/-- C3 witness: a deep path is stripped of its last three segments, and a
too-shallow path fails with the invalid-path error. -/
theorem C3_hint_paths_witness :
    (3 ≤ (parsePath "/a/b/c/d").components.length)
    ∧ (∃ dir tail, libapp_path_from_settings ["/a/b/c/d"] = .ok dir ∧
        dir.absolute = (parsePath "/a/b/c/d").absolute ∧ tail.length = 3 ∧
        (parsePath "/a/b/c/d").components = dir.components ++ tail)
    ∧ (libapp_path_from_settings ["/a"]
        = .error (.invalidArgument "original_libapp_paths" ("Invalid path: " ++ "/a"))) :=
  ⟨by decide,
   C3_hint_paths.2.1 ["/a/b/c/d"] "/a/b/c/d" (by decide) (by decide),
   C3_hint_paths.2.2.1 ["/a"] "/a" (by decide) (by decide)⟩

/-- C4: when exactly one phase-one candidate's archive contains the expected
path, `find_and_open_lib` returns that candidate's location for every
enumeration order of the directory items: the answer is independent of the
order the filesystem yields entries in. -/
theorem C4_order_independence (arch : ArchNames) (lib_name : String)
    (items itemsPerm : List DirItem) (d : FileData)
    (hall : items.all isOkItem = true)
    (huniq : (candidateList arch items).filter
        (fun c => probeOk c (get_relative_lib_path arch lib_name)) = [d])
    (hperm : items.Perm itemsPerm) :
    find_and_open_lib arch (.ok itemsPerm) lib_name
      = .ok ⟨d.entryList, get_relative_lib_path arch lib_name⟩ := by
  have hallp : itemsPerm.all isOkItem = true := by
    rw [List.all_eq_true] at hall ⊢
    intro x hx
    exact hall x (hperm.mem_iff.mpr hx)
  have hcand : (candidateList arch items).Perm (candidateList arch itemsPerm) :=
    hperm.filterMap (archCandidate arch)
  have hfilter : (candidateList arch itemsPerm).filter
      (fun c => probeOk c (get_relative_lib_path arch lib_name)) = [d] := by
    have h2 := (hcand.filter (fun c => probeOk c (get_relative_lib_path arch lib_name))).symm
    rw [huniq] at h2
    exact List.perm_singleton.mp h2
  have hfind := find?_of_filter_eq_singleton
    (fun c => probeOk c (get_relative_lib_path arch lib_name))
    (candidateList arch itemsPerm) d hfilter
  rw [find_and_open_lib_eq arch itemsPerm lib_name hallp, hfind]

/-- C4 witness: a wrong-architecture `base.apk`, the unique matching split
containing the entry, a non-matching archive that also contains the entry,
and a matching-named split lacking it; a shuffled enumeration still returns
the unique matching split. -/
theorem C4_order_independence_witness :
    ([Except.ok ⟨.valid "base.apk", .file (.zipFile [⟨"lib/wrong/libapp.so", [9]⟩])⟩,
      Except.ok ⟨.valid "app-x86_64-release.apk",
        .file (.zipFile [⟨"lib/x86_64/libapp.so", [1]⟩])⟩,
      Except.ok ⟨.valid "aaa.apk", .file (.zipFile [⟨"lib/x86_64/libapp.so", [2]⟩])⟩,
      Except.ok ⟨.valid "aaa-x86_64.apk", .file (.zipFile [])⟩] : List DirItem).all
        isOkItem = true
    ∧ (candidateList archX86_64
        [Except.ok ⟨.valid "base.apk", .file (.zipFile [⟨"lib/wrong/libapp.so", [9]⟩])⟩,
         Except.ok ⟨.valid "app-x86_64-release.apk",
           .file (.zipFile [⟨"lib/x86_64/libapp.so", [1]⟩])⟩,
         Except.ok ⟨.valid "aaa.apk", .file (.zipFile [⟨"lib/x86_64/libapp.so", [2]⟩])⟩,
         Except.ok ⟨.valid "aaa-x86_64.apk", .file (.zipFile [])⟩]).filter
        (fun c => probeOk c (get_relative_lib_path archX86_64 "libapp.so"))
      = [.zipFile [⟨"lib/x86_64/libapp.so", [1]⟩]]
    ∧ find_and_open_lib archX86_64
        (.ok [Except.ok ⟨.valid "aaa-x86_64.apk", .file (.zipFile [])⟩,
          Except.ok ⟨.valid "base.apk", .file (.zipFile [⟨"lib/wrong/libapp.so", [9]⟩])⟩,
          Except.ok ⟨.valid "aaa.apk", .file (.zipFile [⟨"lib/x86_64/libapp.so", [2]⟩])⟩,
          Except.ok ⟨.valid "app-x86_64-release.apk",
            .file (.zipFile [⟨"lib/x86_64/libapp.so", [1]⟩])⟩]) "libapp.so"
      = .ok ⟨(FileData.zipFile [⟨"lib/x86_64/libapp.so", [1]⟩]).entryList,
          get_relative_lib_path archX86_64 "libapp.so"⟩ :=
  ⟨by decide, by decide,
   C4_order_independence archX86_64 "libapp.so"
     [Except.ok ⟨.valid "base.apk", .file (.zipFile [⟨"lib/wrong/libapp.so", [9]⟩])⟩,
      Except.ok ⟨.valid "app-x86_64-release.apk",
        .file (.zipFile [⟨"lib/x86_64/libapp.so", [1]⟩])⟩,
      Except.ok ⟨.valid "aaa.apk", .file (.zipFile [⟨"lib/x86_64/libapp.so", [2]⟩])⟩,
      Except.ok ⟨.valid "aaa-x86_64.apk", .file (.zipFile [])⟩]
     [Except.ok ⟨.valid "aaa-x86_64.apk", .file (.zipFile [])⟩,
      Except.ok ⟨.valid "base.apk", .file (.zipFile [⟨"lib/wrong/libapp.so", [9]⟩])⟩,
      Except.ok ⟨.valid "aaa.apk", .file (.zipFile [⟨"lib/x86_64/libapp.so", [2]⟩])⟩,
      Except.ok ⟨.valid "app-x86_64-release.apk",
        .file (.zipFile [⟨"lib/x86_64/libapp.so", [1]⟩])⟩]
     (.zipFile [⟨"lib/x86_64/libapp.so", [1]⟩])
     (by decide) (by decide) (by decide)⟩

/-- C5: the scan never fails the whole operation on a subdirectory, a
non-text-named file, or a non-archive file: each such entry is skipped and
the scan continues, and (when the entry is not named `base.apk`, which the
terminal attempt reads by name) the overall search result is unchanged;
totality of `find_and_open_lib` as a Lean function is the no-panic
guarantee. -/
theorem C5_skip_safety :
    (∀ (arch : ArchNames) (lp : String) (e : DirEntry) (rest : List DirItem),
        e.node = .dir →
        scanEntries arch lp (.ok e :: rest) = scanEntries arch lp rest)
    ∧ (∀ (arch : ArchNames) (lp : String) (data : FileData) (rest : List DirItem),
        scanEntries arch lp (.ok ⟨.invalid, .file data⟩ :: rest)
          = scanEntries arch lp rest)
    ∧ (∀ (arch : ArchNames) (lp fn : String) (rest : List DirItem),
        scanEntries arch lp (.ok ⟨.valid fn, .file .invalidZip⟩ :: rest)
          = scanEntries arch lp rest)
    ∧ (∀ (arch : ArchNames) (lib_name : String) (e : DirEntry) (rest : List DirItem),
        (e.node = .dir ∨ e.name = .invalid ∨ e.node = .file .invalidZip) →
        e.name ≠ .valid "base.apk" →
        find_and_open_lib arch (.ok (.ok e :: rest)) lib_name
          = find_and_open_lib arch (.ok rest) lib_name) := by
  have skip3 : ∀ (arch : ArchNames) (lp fn : String) (rest : List DirItem),
      scanEntries arch lp (.ok ⟨.valid fn, .file .invalidZip⟩ :: rest)
        = scanEntries arch lp rest := by
    intro arch lp fn rest
    cases hf : (strEndsWith fn ".apk" && strContains fn arch.apk_split) with
    | true => exact scan_skip_failed_probe arch lp fn .invalidZip rest hf (by rfl)
    | false => exact scan_skip_nonmatching arch lp fn .invalidZip rest hf
  refine ⟨scan_skip_dir, fun arch lp data rest => scan_skip_invalid_name arch lp data rest,
    skip3, ?_⟩
  intro arch lib_name e rest hskip hne
  have hscan : scanEntries arch (get_relative_lib_path arch lib_name) (.ok e :: rest)
      = scanEntries arch (get_relative_lib_path arch lib_name) rest := by
    rcases hskip with h | h | h
    · exact scan_skip_dir _ _ _ _ h
    · obtain ⟨nm, nd⟩ := e
      change nm = OsName.invalid at h
      subst h
      cases nd with
      | dir => exact scan_skip_dir _ _ _ _ rfl
      | file data => exact scan_skip_invalid_name arch _ data rest
    · obtain ⟨nm, nd⟩ := e
      change nd = FsNode.file .invalidZip at h
      subst h
      cases nm with
      | invalid => exact scan_skip_invalid_name arch _ _ rest
      | valid fn => exact skip3 arch _ fn rest
  have hbeq : (e.name == OsName.valid "base.apk") = false := by
    simp [hne]
  simp only [find_and_open_lib]
  rw [hscan, openFileByName_skip rest e "base.apk" hbeq]

/-- C5 witness: a subdirectory, a non-decodable name, and a non-archive file
are each skipped, and a skipped subdirectory leaves the overall result (here
a successful base-archive fallback) unchanged. -/
theorem C5_skip_safety_witness :
    scanEntries archX86_64 "lib/x86_64/libapp.so" [Except.ok ⟨.valid "subdir", .dir⟩]
      = scanEntries archX86_64 "lib/x86_64/libapp.so" []
    ∧ scanEntries archX86_64 "lib/x86_64/libapp.so"
        [Except.ok ⟨.invalid, .file (.zipFile [])⟩]
      = scanEntries archX86_64 "lib/x86_64/libapp.so" []
    ∧ scanEntries archX86_64 "lib/x86_64/libapp.so"
        [Except.ok ⟨.valid "junk-x86_64.apk", .file .invalidZip⟩]
      = scanEntries archX86_64 "lib/x86_64/libapp.so" []
    ∧ find_and_open_lib archX86_64
        (.ok (Except.ok ⟨.valid "subdir", .dir⟩ ::
          [Except.ok ⟨.valid "base.apk",
            .file (.zipFile [⟨"lib/x86_64/libapp.so", [1]⟩])⟩])) "libapp.so"
      = find_and_open_lib archX86_64
          (.ok [Except.ok ⟨.valid "base.apk",
            .file (.zipFile [⟨"lib/x86_64/libapp.so", [1]⟩])⟩]) "libapp.so" :=
  ⟨C5_skip_safety.1 archX86_64 "lib/x86_64/libapp.so" ⟨.valid "subdir", .dir⟩ [] rfl,
   C5_skip_safety.2.1 archX86_64 "lib/x86_64/libapp.so" (.zipFile []) [],
   C5_skip_safety.2.2.1 archX86_64 "lib/x86_64/libapp.so" "junk-x86_64.apk" [],
   C5_skip_safety.2.2.2 archX86_64 "libapp.so" ⟨.valid "subdir", .dir⟩
     [Except.ok ⟨.valid "base.apk", .file (.zipFile [⟨"lib/x86_64/libapp.so", [1]⟩])⟩]
     (Or.inl rfl) (by decide)⟩

/-- C6: every `ZipLocation` ever constructed carries an internal path that
was verified present among its archive's entry names at construction time:
`check_for_lib_path` (the only construction site) guarantees it, and it is
preserved through `find_and_open_lib`. -/
theorem C6_location_invariant :
    (∀ (opened : Except FindError FileData) (lp : String) (zl : ZipLocation),
        check_for_lib_path opened lp = .ok zl →
        zl.archive.any (fun e => e.name == zl.internal_path) = true)
    ∧ (∀ (arch : ArchNames) (apks_dir : ApksDir) (lib_name : String) (zl : ZipLocation),
        find_and_open_lib arch apks_dir lib_name = .ok zl →
        zl.archive.any (fun e => e.name == zl.internal_path) = true) :=
  ⟨check_invariant, find_and_open_lib_invariant⟩

/-- C6 witness: a concrete successful search yields a location whose internal
path appears among its archive's entry names. -/
theorem C6_location_invariant_witness :
    find_and_open_lib archArm
        (.ok [Except.ok ⟨.valid "base.apk",
          .file (.zipFile [⟨"lib/armeabi-v7a/libapp.so", [2]⟩])⟩]) "libapp.so"
      = .ok ⟨[⟨"lib/armeabi-v7a/libapp.so", [2]⟩], "lib/armeabi-v7a/libapp.so"⟩
    ∧ (ZipLocation.mk [⟨"lib/armeabi-v7a/libapp.so", [2]⟩]
        "lib/armeabi-v7a/libapp.so").archive.any
        (fun e => e.name == (ZipLocation.mk [⟨"lib/armeabi-v7a/libapp.so", [2]⟩]
          "lib/armeabi-v7a/libapp.so").internal_path) = true :=
  ⟨by decide,
   C6_location_invariant.2 archArm
     (.ok [Except.ok ⟨.valid "base.apk",
       .file (.zipFile [⟨"lib/armeabi-v7a/libapp.so", [2]⟩])⟩]) "libapp.so"
     ⟨[⟨"lib/armeabi-v7a/libapp.so", [2]⟩], "lib/armeabi-v7a/libapp.so"⟩ (by decide)⟩

/-- C7 counterexample: for the library file name `"/a"` (an absolute path),
`PathBuf::join` replaces the path instead of appending, so the result is not
the plain concatenation the claim states for every library file name. -/
theorem C7_counterexample :
    ¬ (get_relative_lib_path archX86_64 "/a"
        = "lib/" ++ archX86_64.lib_dir ++ "/" ++ "/a") := by decide

/-- C7 amended: for every active architecture pair and every library file
name that does not begin with a path separator, `get_relative_lib_path` is
total and equals the concatenation `"lib/" + lib_dir + "/" + name`. -/
theorem C7_relative_path_concat (arch : ArchNames) (harch : arch ∈ androidArchList)
    (name : String) (hname : strStartsWith name "/" = false) :
    get_relative_lib_path arch name = "lib/" ++ arch.lib_dir ++ "/" ++ name := by
  have key : ∀ base : String, (base == "") = false → strEndsWith base "/" = false →
      pathBufPush base name = base ++ "/" ++ name := by
    intro base h1 h2
    simp [pathBufPush, hname, h1, h2]
  fin_cases harch <;>
    exact (key _ (by decide) (by decide)).trans (congrArg (fun s => s ++ name) (by decide))

/-- C7 witness: the amended statement at a concrete architecture and name. -/
theorem C7_relative_path_concat_witness :
    archX86 ∈ androidArchList
    ∧ strStartsWith "libapp.so" "/" = false
    ∧ get_relative_lib_path archX86 "libapp.so"
      = "lib/" ++ archX86.lib_dir ++ "/" ++ "libapp.so" :=
  ⟨by decide, by decide, C7_relative_path_concat archX86 (by decide) "libapp.so" (by decide)⟩

/-- C8: when `find_and_open_lib` succeeds, `open_base_lib` opens the matched
entry by the location's internal path inside the owned archive and returns a
buffer equal to that entry's full byte contents. -/
theorem C8_open_reads_entry (arch : ArchNames) (apks_dir : ApksDir) (lib_name : String)
    (zl : ZipLocation) (h : find_and_open_lib arch apks_dir lib_name = .ok zl) :
    ∃ entry, byName zl.archive zl.internal_path = some entry ∧
      entry.name = zl.internal_path ∧
      open_base_lib arch apks_dir lib_name = .ok entry.data := by
  have hany := find_and_open_lib_invariant arch apks_dir lib_name zl h
  rw [List.any_eq_true] at hany
  obtain ⟨e0, he0, hbe⟩ := hany
  have hsome : (zl.archive.find? (fun e => e.name == zl.internal_path)).isSome :=
    List.find?_isSome.mpr ⟨e0, he0, hbe⟩
  obtain ⟨entry, hentry⟩ := Option.isSome_iff_exists.mp hsome
  have hname : (entry.name == zl.internal_path) = true :=
    find?_sat (fun e => e.name == zl.internal_path) zl.archive entry hentry
  refine ⟨entry, hentry, by simpa using hname, ?_⟩
  simp [open_base_lib, h, byName, hentry]

/-- C8 witness: a concrete search followed by reading the entry's bytes. -/
theorem C8_open_reads_entry_witness :
    find_and_open_lib archX86_64
        (.ok [Except.ok ⟨.valid "base.apk",
          .file (.zipFile [⟨"lib/x86_64/libapp.so", [4, 5]⟩])⟩]) "libapp.so"
      = .ok ⟨[⟨"lib/x86_64/libapp.so", [4, 5]⟩], "lib/x86_64/libapp.so"⟩
    ∧ ∃ entry,
        byName (ZipLocation.mk [⟨"lib/x86_64/libapp.so", [4, 5]⟩]
            "lib/x86_64/libapp.so").archive
          (ZipLocation.mk [⟨"lib/x86_64/libapp.so", [4, 5]⟩]
            "lib/x86_64/libapp.so").internal_path = some entry ∧
        entry.name = (ZipLocation.mk [⟨"lib/x86_64/libapp.so", [4, 5]⟩]
          "lib/x86_64/libapp.so").internal_path ∧
        open_base_lib archX86_64
          (.ok [Except.ok ⟨.valid "base.apk",
            .file (.zipFile [⟨"lib/x86_64/libapp.so", [4, 5]⟩])⟩]) "libapp.so"
          = .ok entry.data :=
  ⟨by decide,
   C8_open_reads_entry archX86_64
     (.ok [Except.ok ⟨.valid "base.apk",
       .file (.zipFile [⟨"lib/x86_64/libapp.so", [4, 5]⟩])⟩]) "libapp.so"
     ⟨[⟨"lib/x86_64/libapp.so", [4, 5]⟩], "lib/x86_64/libapp.so"⟩ (by decide)⟩

/-- C9: the phase-one filter is plain substring containment, so on the x86
architecture an x86_64-named split passes the filter, and a directory exists
(here: one also holding a matching `base.apk`) for which the x86 search
probes and returns the x86_64-named archive during phase one, before the
base-archive fallback. -/
theorem C9_substring_overlap :
    strContains "app-x86_64-release.apk" archX86.apk_split = true
    ∧ strEndsWith "app-x86_64-release.apk" ".apk" = true
    ∧ find_and_open_lib archX86
        (.ok [Except.ok ⟨.valid "app-x86_64-release.apk",
            .file (.zipFile [⟨"lib/x86/libapp.so", [1]⟩])⟩,
          Except.ok ⟨.valid "base.apk",
            .file (.zipFile [⟨"lib/x86/libapp.so", [2]⟩])⟩]) "libapp.so"
      = .ok ⟨[⟨"lib/x86/libapp.so", [1]⟩], "lib/x86/libapp.so"⟩ :=
  ⟨by decide, by decide, by decide⟩

/-- C10: an I/O failure on an individual listing item aborts the whole
search with that error, provided the items before it were all skipped; the
base-archive fallback is never consulted, whatever comes after. -/
theorem C10_listing_error_aborts (arch : ArchNames) (lib_name msg : String)
    (pre post : List DirItem)
    (hpre : scanEntries arch (get_relative_lib_path arch lib_name) pre = .ok none) :
    find_and_open_lib arch (.ok (pre ++ .error msg :: post)) lib_name
      = .error (.ioError msg) := by
  simp only [find_and_open_lib]
  rw [scanEntries_append arch _ pre (.error msg :: post) hpre]
  rfl

/-- C10 witness: the per-entry error is surfaced even though a perfectly
good `base.apk` sits later in the listing. -/
theorem C10_listing_error_aborts_witness :
    scanEntries archX86_64 (get_relative_lib_path archX86_64 "libapp.so") [] = .ok none
    ∧ find_and_open_lib archX86_64
        (.ok (([] : List DirItem) ++ .error "Input/output error" ::
          [Except.ok ⟨.valid "base.apk",
            .file (.zipFile [⟨"lib/x86_64/libapp.so", [1]⟩])⟩])) "libapp.so"
      = .error (.ioError "Input/output error") :=
  ⟨rfl,
   C10_listing_error_aborts archX86_64 "libapp.so" "Input/output error" []
     [Except.ok ⟨.valid "base.apk", .file (.zipFile [⟨"lib/x86_64/libapp.so", [1]⟩])⟩]
     rfl⟩

end Shorebird
